import Mathlib

/-!
Verification of the SFTP storage backend (internal/backend/sftp/sftp.go).

The Go code is shallowly embedded: every remote interaction is an input
oracle (the outcome the remote side would produce), and each operation is a
pure function from those outcomes to its returned error together with the
trace of remote protocol calls it performed. Machine behaviour that the
claims depend on (Go closure capture in the Save defer, `errors.Is` chain
unwrapping, `uint64` arithmetic in the statvfs check) is modelled explicitly.
-/

namespace SFTPSpec

/-- Model of Go `error` values as used by the backend: the sentinel errors
the code compares against (`os.ErrNotExist`, `os.ErrPermission`,
`errTooShort`), protocol status errors (`sftp.StatusError` carrying an
`FxCode`), ad-hoc errors created by `errors.New` / `errors.Errorf` /
`fmt.Errorf` (`mk`), wrapping via `errors.Wrapf` (`wrap`), and
`backoff.Permanent` (`permanent`). -/
inductive Err where
  | notExist : Err
  | permission : Err
  | tooShort : Err
  | status (code : Nat) : Err
  | mk (msg : String) : Err
  | wrap (msg : String) (inner : Err) : Err
  | permanent (inner : Err) : Err
deriving DecidableEq, Repr

/-- Go `errors.Is`: the target is found somewhere along the unwrap chain.
Both `errors.Wrapf` (pkg/errors) and `backoff.PermanentError` implement
`Unwrap`, so the chain passes through `wrap` and `permanent`. -/
def errIs (e t : Err) : Bool :=
  e == t ||
    match e with
    | .wrap _ inner => errIs inner t
    | .permanent inner => errIs inner t
    | _ => false

/-- A printable message for an error, standing in for Go `%v` formatting.
Only used where the code interpolates an error into a new message. -/
def errMsg : Err → String
  | .notExist => "file does not exist"
  | .permission => "permission denied"
  | .tooShort => "file is too short"
  | .status c => "sftp status " ++ toString c
  | .mk m => m
  | .wrap m e => m ++ ": " ++ errMsg e
  | .permanent e => errMsg e

/-- Message of a possibly-nil Go error (`%v` prints nil errors too). -/
def errMsgO : Option Err → String
  | none => "<nil>"
  | some e => errMsg e

/-- Embeds `func (r *SFTP) IsNotExist(err error) bool`:
`errors.Is(err, os.ErrNotExist)`. -/
def IsNotExist (e : Err) : Bool := errIs e .notExist

/-- Embeds `func (r *SFTP) IsPermanentError(err error) bool`:
`r.IsNotExist(err) || errors.Is(err, errTooShort) || errors.Is(err, os.ErrPermission)`. -/
def IsPermanentError (e : Err) : Bool :=
  IsNotExist e || errIs e .tooShort || errIs e .permission

/-- The sticky exit signal of the process supervisor. The wait goroutine
sends `errors.Wrap(cmd.Wait() error, "ssh command exited")` forever on the
result channel; `errors.Wrap` of a nil error is nil, and
`backoff.Permanent` of nil is nil, so a clean exit is indistinguishable
from a still-running subprocess to `clientError`. `some e` therefore
models a fired signal carrying the (non-nil, already wrapped) exit error,
and `none` models everything `clientError` treats as "still fine". -/
def clientError (sig : Option Err) : Option Err :=
  sig.map Err.permanent

/-- `sftp.ErrSSHFxFailure`, the generic SSH_FX_FAILURE status code. -/
def sshFxFailure : Nat := 4

/-- Result fields of `StatVFS` that `checkNoSpace` reads (all `uint64`). -/
structure VFSInfo where
  favail : Nat
  frsize : Nat
  bavail : Nat
deriving DecidableEq, Repr

/-- Remote-side inputs to `checkNoSpace`: whether the server advertises
the `statvfs@openssh.com` extension, and what `StatVFS(dir)` would return
(`none` = the query itself fails). -/
structure NoSpaceEnv where
  hasStatvfsExt : Bool
  statVFS : Option VFSInfo
deriving DecidableEq, Repr

def u64Mod : Nat := 2 ^ 64

/-- Go `uint64(size)` for an `int64` size: two's-complement conversion. -/
def intToU64 (size : Int) : Nat := (size % (2 ^ 64 : Int)).toNat

/-- Embeds `func (r *SFTP) checkNoSpace(dir string, size int64, origErr error) error`.
The type assertion `origErr.(*sftp.StatusError)` only matches a top-level
status error (no unwrapping). Returns the resulting error and whether the
`StatVFS` remote call was performed. `Frsize*Bavail` is `uint64`
multiplication, hence the reduction mod `2^64`. -/
def checkNoSpace (env : NoSpaceEnv) (size : Int) (origErr : Err) : Err × Bool :=
  match origErr with
  | .status code =>
    if code = sshFxFailure ∧ env.hasStatvfsExt = true then
      match env.statVFS with
      | none => (origErr, true)
      | some fs =>
        if fs.favail = 0 ∨ (fs.frsize * fs.bavail) % u64Mod < intToU64 size then
          (.permanent (.mk "sftp: no space left on device"), true)
        else (origErr, true)
    else (origErr, false)
  | _ => (origErr, false)

/-- Remote protocol calls performed by `Save` (in trace order). -/
inductive SCall where
  | openTmp : SCall
  | mkdirAll : SCall
  | chmodTmp : SCall
  | writeTmp : SCall
  | closeTmp : SCall
  | statVFSQuery : SCall
  | removeTmp : SCall
  | renameTmp : SCall
  | posixRenameTmp : SCall
deriving DecidableEq, Repr

/-- Remote-side outcomes feeding one `Save` run: the result of each remote
call the code may make (`none` = success), the byte count the concurrent
write reports, the reader's declared length, the posix-rename capability
flag, and the statvfs environment consulted by `checkNoSpace`. -/
structure SaveWorld where
  open1 : Option Err
  mkdirRes : Option Err
  open2 : Option Err
  chmodRes : Option Err
  writeRes : Option Err
  wbytes : Int
  rdLength : Int
  closeRes : Option Err
  renameRes : Option Err
  usePosixRename : Bool
  env : NoSpaceEnv
deriving Repr

/-- The create-temp-file phase of `Save` (sftp.go lines 301-316): open the
temp file exclusively; if that fails with not-exist, `MkdirAll` the parent
and retry the open once (a failed `MkdirAll` is only logged and the
original open error stands). Returns the open error state and the calls
made. -/
def openPhase (w : SaveWorld) : Option Err × List SCall :=
  match w.open1 with
  | none => (none, [.openTmp])
  | some e =>
    if errIs e .notExist then
      match w.mkdirRes with
      | some _ => (some e, [.openTmp, .mkdirAll])
      | none => (w.open2, [.openTmp, .mkdirAll, .openTmp])
    else (some e, [.openTmp])

/-- Embeds `func (r *SFTP) Save(...) error` (sftp.go lines 291-366).
The deferred cleanup closure (lines 327-338) is registered after the chmod
check and captures the local variable `err` by reference, so the
best-effort `Remove` of the temp file runs exactly on those returns where
`err` is non-nil at return time: write failure, close failure, and rename
failure. The length-mismatch return (line 351) builds its error directly
in the return statement without assigning `err`, so the defer sees nil and
removes nothing; a chmod failure returns before the defer is registered.
Returns the operation's error and the trace of remote calls. -/
def save (sig : Option Err) (w : SaveWorld) : Option Err × List SCall :=
  match clientError sig with
  | some e => (some e, [])
  | none =>
    match openPhase w with
    | (some e, calls) => (some (.wrap "OpenFile" e), calls)
    | (none, calls) =>
      match w.chmodRes with
      | some e => (some (.wrap "Chmod" e), calls ++ [.chmodTmp])
      | none =>
        let calls := calls ++ [.chmodTmp]
        match w.writeRes with
        | some e =>
          let (e2, vfsCalled) := checkNoSpace w.env w.rdLength e
          (some (.wrap "Write" e2),
            calls ++ [.writeTmp, .closeTmp]
              ++ (if vfsCalled then [.statVFSQuery] else []) ++ [.removeTmp])
        | none =>
          if w.wbytes ≠ w.rdLength then
            (some (.mk ("wrote " ++ toString w.wbytes
                ++ " bytes instead of the expected " ++ toString w.rdLength ++ " bytes")),
              calls ++ [.writeTmp, .closeTmp])
          else
            match w.closeRes with
            | some e =>
              (some (.wrap "Close" e), calls ++ [.writeTmp, .closeTmp, .removeTmp])
            | none =>
              let rcall := if w.usePosixRename then SCall.posixRenameTmp else SCall.renameTmp
              match w.renameRes with
              | some e =>
                (some (.wrap "Rename" e), calls ++ [.writeTmp, .closeTmp, rcall, .removeTmp])
              | none => (none, calls ++ [.writeTmp, .closeTmp, rcall])

/-- A `SaveWorld` where every remote call succeeds and the write count
matches, with a given close result: used for concrete evaluations. -/
def saveWorldWithClose (c : Option Err) : SaveWorld :=
  { open1 := none, mkdirRes := none, open2 := none, chmodRes := none,
    writeRes := none, wbytes := 5, rdLength := 5, closeRes := c,
    renameRes := none, usePosixRename := true,
    env := ⟨false, none⟩ }

/-- Remote protocol calls performed by `Load`. -/
inductive LCall where
  | openCall : LCall
  | seekCall : LCall
  | probeRead : LCall
  | closeCall : LCall
deriving DecidableEq, Repr

/-- Remote-side outcomes and arguments feeding one `Load` run: results of
the open and seek calls, the requested offset and length, the
`BackendErrorRedesign` feature flag, the consumer's result, what the
one-byte probe of the bounded reader reports (`probeEOF`), and the bounded
reader's remaining-byte counter `N` after the consumer returned. -/
structure LoadWorld where
  openRes : Option Err
  seekRes : Option Err
  offset : Int
  length : Nat
  flag : Bool
  fnRes : Option Err
  probeEOF : Bool
  remN : Int
deriving Repr

/-- Embeds the wrapper closure passed to `util.DefaultLoad` in `Load`
(sftp.go lines 400-417): with `length == 0` or the feature flag disabled
the consumer's result is returned unchanged; otherwise a one-byte probe of
the bounded reader follows the consumer, and end-of-stream with a nonzero
remaining counter yields `fmt.Errorf("%w: %v", errTooShort, err)` — an
error whose unwrap chain contains only `errTooShort`, its message
interpolating the consumer's (possibly nil) result. Also reports whether
the probe read was performed. -/
def loadCheckFn (length : Nat) (flag : Bool) (fnRes : Option Err)
    (probeEOF : Bool) (remN : Int) : Option Err × Bool :=
  if length = 0 ∨ flag = false then (fnRes, false)
  else if probeEOF = true ∧ remN ≠ 0 then
    (some (.wrap (errMsgO fnRes) .tooShort), true)
  else (fnRes, true)

/-- The body of `Load` after a successful open/seek. Modelled from the
spec: `util.DefaultLoad` (outside the given sources) invokes the consumer
through the wrapper on the opened reader and closes the reader afterwards,
returning the wrapper's result; §4.3 "Invokes the consumer with the
(possibly length-bounded) reader ... otherwise the consumer's own result
is returned unchanged". -/
def loadBody (w : LoadWorld) (pre : List LCall) : Option Err × List LCall :=
  let (r, probed) := loadCheckFn w.length w.flag w.fnRes w.probeEOF w.remN
  (r, pre ++ (if probed then [.probeRead] else []) ++ [.closeCall])

/-- Embeds `func (r *SFTP) Load(...) error` together with `openReader`
(sftp.go lines 393-441): the client-error gate, the open, the seek when
`offset > 0` (closing the file if the seek fails), then the consumer via
the too-short wrapper. -/
def load (sig : Option Err) (w : LoadWorld) : Option Err × List LCall :=
  match clientError sig with
  | some e => (some e, [])
  | none =>
    match w.openRes with
    | some e => (some (.wrap "Open" e), [.openCall])
    | none =>
      if 0 < w.offset then
        match w.seekRes with
        | some e => (some (.wrap "Seek" e), [.openCall, .seekCall, .closeCall])
        | none => loadBody w [.openCall, .seekCall]
      else loadBody w [.openCall]

/-- The `backend.FileInfo` values handed to the `List` visitor. -/
structure BFileInfo where
  name : String
  size : Int
deriving DecidableEq, Repr

/-- One step yielded by the remote directory walker: either the walker
reports an error (`walker.Err()` non-nil after `Step`), or it is positioned
at an entry with its path and stat data. The walker itself is library code
behind the wire; its realized step sequence is an input. -/
inductive WStep where
  | fault (e : Err) : WStep
  | entry (p : String) (isDir : Bool) (isRegular : Bool) (size : Int) : WStep
deriving DecidableEq, Repr

/-- Go `path.Base` restricted to the clean paths the walker yields: the
component after the last slash. -/
def pathBase (p : String) : String :=
  (p.splitOn "/").getLastD p

/-- Inputs to one `List` run besides the walker steps: whether the external
context is cancelled (checked before and after each visitor call and after
the loop) and the visitor's result on each file info. -/
structure ListWorld where
  cancelled : Bool
  visitor : BFileInfo → Option Err
deriving Inhabited

/-- The walk loop of `List` (sftp.go lines 475-524): for each step, a
walker error ends the walk — not-exist means an empty listing (`nil`),
anything else is wrapped and returned; the base directory itself is
skipped; directories are skipped (`SkipDir`) when the category has no
subdirectories; non-regular files are skipped; otherwise the visitor runs
between two cancellation checks. When the steps are exhausted the loop
breaks and `ctx.Err()` is returned. Returns the error, the file infos
passed to the visitor, and the number of walker steps consumed. -/
def listLoop (w : ListWorld) (basedir : String) (subdirs : Bool) :
    List WStep → Option Err × List BFileInfo × Nat
  | [] => (if w.cancelled then some (.mk "context canceled") else none, [], 0)
  | .fault e :: _ =>
    if errIs e .notExist then (none, [], 1)
    else (some (.wrap ("Walk " ++ basedir) e), [], 1)
  | .entry p isDir isRegular size :: rest =>
    if p = basedir then
      let (r, vs, n) := listLoop w basedir subdirs rest
      (r, vs, n + 1)
    else if isDir = true ∧ subdirs = false then
      let (r, vs, n) := listLoop w basedir subdirs rest
      (r, vs, n + 1)
    else if isRegular = false then
      let (r, vs, n) := listLoop w basedir subdirs rest
      (r, vs, n + 1)
    else
      let fi : BFileInfo := ⟨pathBase p, size⟩
      if w.cancelled then (some (.mk "context canceled"), [], 1)
      else
        match w.visitor fi with
        | some e => (some e, [fi], 1)
        | none =>
          let (r, vs, n) := listLoop w basedir subdirs rest
          (r, fi :: vs, n + 1)

/-- Embeds `func (r *SFTP) List(...) error` (sftp.go lines 468-525): the
client-error gate, then the walk loop over the walker's realized steps. -/
def listOp (sig : Option Err) (w : ListWorld) (basedir : String)
    (subdirs : Bool) (steps : List WStep) : Option Err × List BFileInfo × Nat :=
  match clientError sig with
  | some e => (some e, [], 0)
  | none => listLoop w basedir subdirs steps

/-- Connection parameters read by `buildSSHCommand` (`cfg.Command`,
`cfg.Args`, `cfg.Host`, `cfg.Port`, `cfg.User`). -/
structure SSHConfig where
  command : String
  extraArgs : String
  host : String
  port : String
  user : String
deriving DecidableEq, Repr

/-- Embeds `func buildSSHCommand(cfg Config) (string, []string, error)`
(sftp.go lines 203-239). `backend.SplitShellStrings` is code outside this
package and is taken as the argument `split`. With an explicit command the
code indexes `args[0]` without checking emptiness, so an empty successful
split would panic in Go; that is modelled as a distinct error value. -/
def buildSSHCommand (split : String → Except Err (List String))
    (cfg : SSHConfig) : Except Err (String × List String) :=
  if ¬cfg.command = "" then
    match split cfg.command with
    | .error e => .error e
    | .ok args =>
      if ¬cfg.extraArgs = "" then
        .error (.mk "cannot specify both sftp.command and sftp.args options")
      else
        match args with
        | [] => .error (.mk "panic: index out of range")
        | a :: rest => .ok (a, rest)
  else
    let args := [cfg.host]
    let args := args ++ (if ¬cfg.port = "" then ["-p", cfg.port] else [])
    let args := args ++ (if ¬cfg.user = "" then ["-l", cfg.user] else [])
    match (if ¬cfg.extraArgs = "" then split cfg.extraArgs else .ok []) with
    | .error e => .error e
    | .ok extra => .ok ("ssh", args ++ extra ++ ["-s", "sftp"])

/-- Embeds the config-file existence probe and directory bootstrap of
`Create` (sftp.go lines 252-264): a successful `Lstat` of the config path
aborts with the distinct already-exists error; any `Lstat` error at all —
not only not-found — proceeds to directory creation. Returns the
operation's error and whether directory creation was entered. -/
def create (lstatRes : Option Err) (mkdirAllRes : Option Err) : Option Err × Bool :=
  match lstatRes with
  | none => (some (.mk "config file already exists"), false)
  | some _ =>
    match mkdirAllRes with
    | some e => (some e, true)
    | none => (none, true)

/-- Embeds `func (r *SFTP) Stat(...)` (sftp.go lines 444-455): the
client-error gate, then one `Lstat`; a failure is wrapped, a success
carries the remote size and the handle's logical name. The Bool records
whether the remote call was made. -/
def statOp (sig : Option Err) (lstatRes : Except Err Int) (hname : String) :
    Except Err BFileInfo × Bool :=
  match clientError sig with
  | some e => (.error e, false)
  | none =>
    match lstatRes with
    | .error e => (.error (.wrap "Lstat" e), true)
    | .ok size => (.ok ⟨hname, size⟩, true)

/-- Embeds `func (r *SFTP) Remove(...)` (sftp.go lines 458-464): the
client-error gate, then one remote `Remove` whose error is wrapped
(`errors.Wrapf` of nil stays nil). -/
def removeOp (sig : Option Err) (removeRes : Option Err) : Option Err × Bool :=
  match clientError sig with
  | some e => (some e, false)
  | none =>
    match removeRes with
    | some e => (some (.wrap "Remove" e), true)
    | none => (none, true)

/-- A remote directory entry as `ReadDir` reports it: a plain file, or a
subdirectory with its own entries (the modelled remote file tree). -/
inductive Entry where
  | file (name : String) : Entry
  | dir (name : String) (sub : List Entry) : Entry
deriving Repr

/-- Remote protocol calls performed by `Delete`/`deleteRecursive`. -/
inductive DCall where
  | readDir (p : String) : DCall
  | removeFile (p : String) : DCall
  | removeDir (p : String) : DCall
deriving DecidableEq, Repr

/-- Go `path.Join` on the clean, slash-free component names used here. -/
def pjoin (p n : String) : String := p ++ "/" ++ n

/-- Remote outcome maps and cancellation state for one `Delete` run:
per-path results of `ReadDir`, `Remove` and `RemoveDirectory`, and whether
the external context is cancelled (checked at each entry iteration). -/
structure DelWorld where
  readDirRes : String → Option Err
  removeRes : String → Option Err
  rmdirRes : String → Option Err
  cancelled : Bool

/-- The entry loop of `deleteRecursive` (sftp.go lines 554-587), with the
recursive call's own leading `ReadDir` inlined: each iteration first
checks cancellation; a subdirectory is recursively emptied and then
removed with `RemoveDirectory`; a plain file is removed with `Remove`;
the first error stops everything. Returns the error and the trace of
remote calls. -/
def delLoop (w : DelWorld) (name : String) : List Entry → Option Err × List DCall
  | [] => (none, [])
  | fi :: rest =>
    if w.cancelled then (some (.mk "context canceled"), [])
    else
      match fi with
      | .dir n sub =>
        match w.readDirRes (pjoin name n) with
        | some e =>
          (some (.wrap ("ReadDir " ++ pjoin name n) e), [.readDir (pjoin name n)])
        | none =>
          match delLoop w (pjoin name n) sub with
          | (some e, t) => (some e, .readDir (pjoin name n) :: t)
          | (none, t) =>
            match w.rmdirRes (pjoin name n) with
            | some e =>
              (some (.wrap ("RemoveDirectory " ++ pjoin name n) e),
                (.readDir (pjoin name n) :: t) ++ [.removeDir (pjoin name n)])
            | none =>
              match delLoop w name rest with
              | (r, t2) =>
                (r, (.readDir (pjoin name n) :: t) ++ [.removeDir (pjoin name n)] ++ t2)
      | .file n =>
        match w.removeRes (pjoin name n) with
        | some e =>
          (some (.wrap ("Remove " ++ pjoin name n) e), [.removeFile (pjoin name n)])
        | none =>
          match delLoop w name rest with
          | (r, t2) => (r, .removeFile (pjoin name n) :: t2)

/-- Embeds `func (r *SFTP) Delete(ctx) error` (sftp.go lines 590-592):
`Delete` calls `deleteRecursive(ctx, r.p)` directly; unlike the other
operations it does not consult `clientError`, so the sticky exit signal
available on the receiver is ignored — the `_sig` argument mirrors that
state and is deliberately unused, as in the code. -/
def deleteOp (_sig : Option Err) (w : DelWorld) (root : String)
    (entries : List Entry) : Option Err × List DCall :=
  match w.readDirRes root with
  | some e => (some (.wrap ("ReadDir " ++ root) e), [.readDir root])
  | none =>
    match delLoop w root entries with
    | (r, t) => (r, .readDir root :: t)

/-- A `DelWorld` where every remote call succeeds and the context is not
cancelled. -/
def cleanDelWorld : DelWorld :=
  ⟨fun _ => none, fun _ => none, fun _ => none, false⟩

/-- The removal sequence the spec prescribes for `Delete` (§4.3, §9):
list each directory, remove plain files directly, fully remove a
subdirectory's contents recursively before removing the subdirectory
itself, in entry order. -/
def specRemovalSeq (p : String) : List Entry → List DCall
  | [] => []
  | .file n :: rest => .removeFile (pjoin p n) :: specRemovalSeq p rest
  | .dir n sub :: rest =>
    (.readDir (pjoin p n) :: specRemovalSeq (pjoin p n) sub)
      ++ [.removeDir (pjoin p n)] ++ specRemovalSeq p rest

end SFTPSpec

namespace SFTPSpec

/-- C5: `IsPermanentError` is true exactly on the errors whose unwrap chain
reaches not-found, the too-short sentinel, or permission-denied. -/
theorem c5_is_permanent_error_iff (e : Err) :
    IsPermanentError e = true ↔
      (errIs e .notExist = true ∨ errIs e .tooShort = true ∨ errIs e .permission = true) := by
  simp [IsPermanentError, IsNotExist, Bool.or_eq_true, or_assoc]

/-- C4: the write error is reclassified as the permanent no-space error
exactly when it is a top-level status error with the generic failure code,
the statvfs extension is advertised, the space query succeeds, and the
queried space shows zero available inodes or a free-byte budget smaller
than the write size; in every other case (including a failed query) the
original error is returned unchanged. -/
theorem c4_no_space_reclassification (env : NoSpaceEnv) (size : Int) (e : Err) :
    ((∃ fs, e = .status sshFxFailure ∧ env.hasStatvfsExt = true ∧
        env.statVFS = some fs ∧
        (fs.favail = 0 ∨ (fs.frsize * fs.bavail) % u64Mod < intToU64 size)) →
      (checkNoSpace env size e).1 = .permanent (.mk "sftp: no space left on device"))
    ∧ (¬(∃ fs, e = .status sshFxFailure ∧ env.hasStatvfsExt = true ∧
        env.statVFS = some fs ∧
        (fs.favail = 0 ∨ (fs.frsize * fs.bavail) % u64Mod < intToU64 size)) →
      (checkNoSpace env size e).1 = e) := by
  constructor
  · rintro ⟨fs, rfl, hext, hvfs, hcond⟩
    simp [checkNoSpace, hext, hvfs, hcond]
  · intro hno
    match e with
    | .notExist | .permission | .tooShort | .mk _ | .wrap _ _ | .permanent _ =>
      simp [checkNoSpace]
    | .status code =>
      by_cases hc : code = sshFxFailure ∧ env.hasStatvfsExt = true
      · obtain ⟨rfl, hext⟩ := hc
        match hvfs : env.statVFS with
        | none => simp [checkNoSpace, hext, hvfs]
        | some fs =>
          have hcond : ¬(fs.favail = 0 ∨ (fs.frsize * fs.bavail) % u64Mod < intToU64 size) := by
            intro hcond
            exact hno ⟨fs, rfl, hext, hvfs, hcond⟩
          simp [checkNoSpace, hext, hvfs, hcond]
      · simp [checkNoSpace, hc]

/-- Witness for C4 at a concrete input: a generic-failure status error with
the extension present and zero available inodes is reclassified. -/
theorem c4_no_space_reclassification_witness :
    (checkNoSpace ⟨true, some ⟨0, 4096, 100⟩⟩ 10 (.status 4)).1
      = .permanent (.mk "sftp: no space left on device") := by
  exact (c4_no_space_reclassification ⟨true, some ⟨0, 4096, 100⟩⟩ 10 (.status 4)).1
    ⟨⟨0, 4096, 100⟩, by decide, rfl, rfl, by left; rfl⟩

/-- The create-temp-file phase produces one of three call traces; in
particular it never performs chmod, write, close, remove or rename calls. -/
theorem openPhase_trace_cases (w : SaveWorld) :
    (openPhase w).2 = [.openTmp] ∨ (openPhase w).2 = [.openTmp, .mkdirAll]
      ∨ (openPhase w).2 = [.openTmp, .mkdirAll, .openTmp] := by
  unfold openPhase
  rcases w.open1 with _ | e
  · simp
  · by_cases h : errIs e .notExist
    · rcases hm : w.mkdirRes with _ | e2 <;> simp [h, hm]
    · simp [h]

/-- No removal or rename call occurs during the create-temp-file phase. -/
theorem openPhase_no_late_calls (w : SaveWorld) :
    SCall.removeTmp ∉ (openPhase w).2 ∧ SCall.renameTmp ∉ (openPhase w).2
      ∧ SCall.posixRenameTmp ∉ (openPhase w).2 := by
  rcases openPhase_trace_cases w with h | h | h <;> rw [h] <;> refine ⟨?_, ?_, ?_⟩ <;> decide

/-- C8: if the streaming write reports no error but the byte count differs
from the reader's declared length, `Save` returns an error and performs no
rename call; it proceeds to the rename only when the counts are exactly
equal (and the close succeeded). -/
theorem c8_save_length_check (w : SaveWorld)
    (hopen : (openPhase w).1 = none) (hchmod : w.chmodRes = none)
    (hwrite : w.writeRes = none) :
    (w.wbytes ≠ w.rdLength →
      (save none w).1.isSome = true ∧
      SCall.renameTmp ∉ (save none w).2 ∧
      SCall.posixRenameTmp ∉ (save none w).2)
    ∧ (w.wbytes = w.rdLength → w.closeRes = none →
      (if w.usePosixRename then SCall.posixRenameTmp else SCall.renameTmp)
        ∈ (save none w).2) := by
  obtain ⟨hrm, hrn, hpr⟩ := openPhase_no_late_calls w
  rcases hp : openPhase w with ⟨ro, calls⟩
  rw [hp] at hopen
  subst hopen
  rw [hp] at hrm hrn hpr
  simp only at hrm hrn hpr
  constructor
  · intro hne
    simp only [save, clientError, Option.map_none, hp, hchmod, hwrite, if_pos hne]
    refine ⟨rfl, ?_, ?_⟩ <;> simp [List.mem_append, hrn, hpr]
  · intro heq hclose
    simp only [save, clientError, Option.map_none, hp, hchmod, hwrite, heq, hclose]
    rcases w.usePosixRename with _ | _ <;>
      rcases hr : w.renameRes with _ | e <;> simp [hr]

/-- Witness for C8: with a successful write of 4 bytes against a declared
length of 5, `Save` errors out and no rename call appears in the trace. -/
theorem c8_save_length_check_witness :
    (save none { saveWorldWithClose none with wbytes := 4 }).1.isSome = true ∧
    SCall.renameTmp ∉ (save none { saveWorldWithClose none with wbytes := 4 }).2 ∧
    SCall.posixRenameTmp ∉ (save none { saveWorldWithClose none with wbytes := 4 }).2 :=
  (c8_save_length_check { saveWorldWithClose none with wbytes := 4 }
    (by decide) (by decide) (by decide)).1 (by decide)

/-- C2 corrected: `Save` attempts best-effort removal of the temporary file
exactly on write, close and rename failures (the runs where the captured
`err` is non-nil when the deferred cleanup runs) — an if-and-only-if over
all runs, so open failures, chmod failures, length-mismatch returns and
fully successful runs attempt no removal; on a close failure `Save` aborts
with an error, attempts the removal and performs no rename call; and a
failed `Save` never creates anything at the final path (a successful
rename call only happens on runs that return success). -/
theorem c2_save_cleanup (w : SaveWorld) :
    (SCall.removeTmp ∈ (save none w).2 ↔
      ((openPhase w).1 = none ∧ w.chmodRes = none ∧
        (w.writeRes.isSome = true
          ∨ (w.writeRes = none ∧ w.wbytes = w.rdLength ∧
              (w.closeRes.isSome = true
                ∨ (w.closeRes = none ∧ w.renameRes.isSome = true))))))
    ∧ ((openPhase w).1 = none → w.chmodRes = none → w.writeRes = none →
      w.wbytes = w.rdLength → w.closeRes.isSome = true →
      (save none w).1.isSome = true ∧
      SCall.removeTmp ∈ (save none w).2 ∧
      SCall.renameTmp ∉ (save none w).2 ∧
      SCall.posixRenameTmp ∉ (save none w).2)
    ∧ ((openPhase w).1 = none → w.chmodRes = none → w.writeRes = none →
      w.wbytes ≠ w.rdLength → SCall.removeTmp ∉ (save none w).2)
    ∧ ((openPhase w).1 = none → w.chmodRes.isSome = true →
      SCall.removeTmp ∉ (save none w).2)
    ∧ ((save none w).1.isSome = true →
      ¬(w.renameRes = none ∧
        (SCall.renameTmp ∈ (save none w).2 ∨ SCall.posixRenameTmp ∈ (save none w).2))) := by
  obtain ⟨hrm, hrn, hpr⟩ := openPhase_no_late_calls w
  rcases hp : openPhase w with ⟨ro, calls⟩
  rw [hp] at hrm hrn hpr
  simp only at hrm hrn hpr
  refine ⟨?_, ?_, ?_, ?_, ?_⟩
  · rcases ro with _ | e₀
    · rcases hc : w.chmodRes with _ | e₁
      · rcases hw : w.writeRes with _ | e₂
        · by_cases hne : w.wbytes = w.rdLength
          · rcases hcl : w.closeRes with _ | e₃
            · rcases hr : w.renameRes with _ | e₄ <;>
                rcases hu : w.usePosixRename with _ | _ <;>
                  simp [save, clientError, hp, hc, hw, hne, hcl, hr, hu,
                    List.mem_append, hrm]
            · simp [save, clientError, hp, hc, hw, hne, hcl, List.mem_append]
          · have hne' : w.wbytes ≠ w.rdLength := hne
            simp [save, clientError, hp, hc, hw, if_pos hne', hne,
              List.mem_append, hrm]
        · simp only [save, clientError, Option.map_none, hp, hc, hw]
          rcases hcn : checkNoSpace w.env w.rdLength e₂ with ⟨e2, b⟩
          rcases b with _ | _ <;> simp [List.mem_append]
      · simp [save, clientError, hp, hc, List.mem_append, hrm]
    · simp [save, clientError, hp, List.mem_append, hrm]
  · intro hopen hchmod hwrite heq hclose
    have hro : ro = none := hopen
    subst hro
    rcases hc : w.closeRes with _ | e
    · rw [hc] at hclose; simp at hclose
    · refine ⟨?_, ?_, ?_, ?_⟩ <;>
        simp [save, clientError, hp, hchmod, hwrite, heq, hc, List.mem_append, hrm, hrn, hpr]
  · intro hopen hchmod hwrite hne
    have hro : ro = none := hopen
    subst hro
    simp only [save, clientError, Option.map_none, hp, hchmod, hwrite, if_pos hne]
    simp [List.mem_append, hrm]
  · intro hopen hchmod
    have hro : ro = none := hopen
    subst hro
    rcases hc : w.chmodRes with _ | e
    · rw [hc] at hchmod; simp at hchmod
    · simp only [save, clientError, Option.map_none, hp, hc]
      simp [List.mem_append, hrm]
  · rintro hfail ⟨hren, hmem⟩
    simp only [save, clientError, Option.map_none, hp] at hfail hmem
    rcases ro with _ | e₀
    · rcases hc : w.chmodRes with _ | e₁ <;> simp only [hc] at hfail hmem
      · rcases hw : w.writeRes with _ | e₂ <;> simp only [hw] at hfail hmem
        · by_cases hne : w.wbytes ≠ w.rdLength
          · simp only [if_pos hne] at hmem
            rcases hmem with hm | hm <;>
              simp [List.mem_append, hrn, hpr] at hm
          · rcases hcl : w.closeRes with _ | e₃ <;> simp only [hcl] at hfail hmem
            · simp only [if_neg hne, hren] at hfail
              simp at hfail
            · simp only [if_neg hne] at hmem
              rcases hmem with hm | hm <;>
                simp [List.mem_append, hrn, hpr] at hm
        · rcases hcn : checkNoSpace w.env w.rdLength e₂ with ⟨e2, b⟩
          simp only [hcn] at hmem
          rcases b with _ | _ <;> rcases hmem with hm | hm <;>
            simp [List.mem_append, hrn, hpr] at hm
      · rcases hmem with hm | hm <;>
          simp [List.mem_append, hrn, hpr] at hm
    · rcases hmem with hm | hm <;>
        simp [List.mem_append, hrn, hpr] at hm

/-- Witness for C2 (amended): a failing close triggers the best-effort
removal of the temporary file with no rename call, and a failing rename
also triggers the removal, through the exact characterization. -/
theorem c2_save_cleanup_witness :
    ((save none (saveWorldWithClose (some (.mk "boom")))).1.isSome = true ∧
      SCall.removeTmp ∈ (save none (saveWorldWithClose (some (.mk "boom")))).2 ∧
      SCall.renameTmp ∉ (save none (saveWorldWithClose (some (.mk "boom")))).2 ∧
      SCall.posixRenameTmp ∉ (save none (saveWorldWithClose (some (.mk "boom")))).2)
    ∧ SCall.removeTmp ∈
        (save none { saveWorldWithClose none with renameRes := some (.mk "bang") }).2 :=
  ⟨(c2_save_cleanup (saveWorldWithClose (some (.mk "boom")))).2.1
      (by decide) rfl rfl (by decide) (by decide),
    (c2_save_cleanup { saveWorldWithClose none with renameRes := some (.mk "bang") }).1.mpr
      ⟨by decide, rfl, Or.inr ⟨rfl, by decide, Or.inr ⟨rfl, rfl⟩⟩⟩⟩

/-- C3: with a positive requested length and the strict-short-file flag
enabled, a probe that reports end-of-stream while the bounded reader's
remaining counter is nonzero makes `Load` return the too-short sentinel
wrapping the consumer's result (a nil result is wrapped too); otherwise,
and also whenever the length is zero or the flag is disabled, `Load`
returns exactly the consumer's result. -/
theorem c3_load_too_short (w : LoadWorld)
    (hopen : w.openRes = none) (hseek : w.seekRes = none) :
    (0 < w.length → w.flag = true →
      ((w.probeEOF = true ∧ w.remN ≠ 0 →
        (load none w).1 = some (.wrap (errMsgO w.fnRes) .tooShort))
      ∧ (¬(w.probeEOF = true ∧ w.remN ≠ 0) → (load none w).1 = w.fnRes)))
    ∧ ((w.length = 0 ∨ w.flag = false) → (load none w).1 = w.fnRes) := by
  constructor
  · intro hlen hflag
    have hlen0 : ¬ w.length = 0 := Nat.pos_iff_ne_zero.mp hlen
    constructor
    · rintro ⟨hpe, hn⟩
      by_cases ho : 0 < w.offset <;>
        simp [load, clientError, hopen, hseek, ho, loadBody, loadCheckFn,
          hlen0, hflag, hpe, hn]
    · intro hnp
      by_cases ho : 0 < w.offset <;>
        simp [load, clientError, hopen, hseek, ho, loadBody, loadCheckFn,
          hlen0, hflag, hnp]
  · intro hor
    rcases hor with h0 | hf
    · by_cases ho : 0 < w.offset <;>
        simp [load, clientError, hopen, hseek, ho, loadBody, loadCheckFn, h0]
    · by_cases ho : 0 < w.offset <;>
        simp [load, clientError, hopen, hseek, ho, loadBody, loadCheckFn, hf]

/-- Witness for C3: a ten-byte bounded read whose probe hits end-of-stream
with three bytes still expected returns the too-short error wrapping the
consumer's nil result. -/
theorem c3_load_too_short_witness :
    (load none ⟨none, none, 0, 10, true, none, true, 3⟩).1
      = some (.wrap "<nil>" .tooShort) :=
  ((c3_load_too_short ⟨none, none, 0, 10, true, none, true, 3⟩ rfl rfl).1
    (by decide) rfl).1 ⟨rfl, by decide⟩

/-- C6: a walk that fails because the base directory does not exist makes
`List` return success with no visitor invocations; a walk error that is
not not-exist is wrapped and propagated with no visits; and a visitor
error stops the walk immediately (no further steps consumed) and is
propagated as is. -/
theorem c6_list_missing_basedir (w : ListWorld) (basedir : String)
    (subdirs : Bool) (e : Err) (rest : List WStep) :
    (errIs e .notExist = true →
      listOp none w basedir subdirs [.fault e] = (none, [], 1))
    ∧ (errIs e .notExist = false →
      (listOp none w basedir subdirs (.fault e :: rest)).1
        = some (.wrap ("Walk " ++ basedir) e)
      ∧ (listOp none w basedir subdirs (.fault e :: rest)).2.1 = [])
    ∧ (∀ p size err, ¬p = basedir → w.cancelled = false →
      w.visitor ⟨pathBase p, size⟩ = some err →
      listOp none w basedir subdirs (.entry p false true size :: rest)
        = (some err, [⟨pathBase p, size⟩], 1)) := by
  refine ⟨?_, ?_, ?_⟩
  · intro hne
    simp [listOp, clientError, listLoop, hne]
  · intro hne
    simp [listOp, clientError, listLoop, hne]
  · intro p size err hp hcancel hv
    simp [listOp, clientError, listLoop, hp, hcancel, hv]

/-- Witness for C6: a not-exist walker fault on the first step produces an
empty successful listing. -/
theorem c6_list_missing_basedir_witness :
    listOp none ⟨false, fun _ => none⟩ "repo/data" true [.fault .notExist]
      = (none, [], 1) :=
  (c6_list_missing_basedir ⟨false, fun _ => none⟩ "repo/data" true .notExist []).1
    (by decide)

/-- C7: with an explicit command configured it is shell-word-split and used
verbatim; configuring both an explicit command and extra arguments is
rejected with an error; otherwise the invocation is exactly "ssh" with the
host, then "-p" port if set, then "-l" user if set, then the split extra
arguments if set, ending with "-s" "sftp". -/
theorem c7_build_ssh_command (split : String → Except Err (List String))
    (cfg : SSHConfig) :
    (∀ a rest, ¬cfg.command = "" → split cfg.command = .ok (a :: rest) →
      cfg.extraArgs = "" → buildSSHCommand split cfg = .ok (a, rest))
    ∧ (¬cfg.command = "" → ¬cfg.extraArgs = "" →
      ∃ e, buildSSHCommand split cfg = .error e)
    ∧ (∀ extra, cfg.command = "" → ¬cfg.extraArgs = "" →
      split cfg.extraArgs = .ok extra →
      buildSSHCommand split cfg = .ok ("ssh",
        [cfg.host] ++ (if ¬cfg.port = "" then ["-p", cfg.port] else [])
          ++ (if ¬cfg.user = "" then ["-l", cfg.user] else [])
          ++ extra ++ ["-s", "sftp"]))
    ∧ (cfg.command = "" → cfg.extraArgs = "" →
      buildSSHCommand split cfg = .ok ("ssh",
        [cfg.host] ++ (if ¬cfg.port = "" then ["-p", cfg.port] else [])
          ++ (if ¬cfg.user = "" then ["-l", cfg.user] else [])
          ++ ["-s", "sftp"])) := by
  refine ⟨?_, ?_, ?_, ?_⟩
  · intro a rest hc hs ha
    simp [buildSSHCommand, hc, hs, ha]
  · intro hc ha
    rcases hs : split cfg.command with e | args
    · exact ⟨e, by simp [buildSSHCommand, hc, hs]⟩
    · exact ⟨.mk "cannot specify both sftp.command and sftp.args options",
        by simp [buildSSHCommand, hc, hs, ha]⟩
  · intro extra hc ha hs
    simp [buildSSHCommand, hc, ha, hs]
  · intro hc ha
    simp [buildSSHCommand, hc, ha]

/-- Witness for C7: default invocation with host, port, user and extra
arguments in the documented order. -/
theorem c7_build_ssh_command_witness :
    buildSSHCommand (fun _ => .ok ["-i", "key"])
        ⟨"", "-i key", "example.com", "2222", "alice"⟩
      = .ok ("ssh", ["example.com", "-p", "2222", "-l", "alice",
          "-i", "key", "-s", "sftp"]) :=
  (c7_build_ssh_command (fun _ => .ok ["-i", "key"])
      ⟨"", "-i key", "example.com", "2222", "alice"⟩).2.2.1
    ["-i", "key"] rfl (by decide) rfl

/-- C10: `Create` fails with the already-exists error exactly when the
`Lstat` probe of the config path succeeds; any probe error at all — not
only not-found — proceeds to directory creation. -/
theorem c10_create_probe (ls mk : Option Err) :
    (ls = none → create ls mk = (some (.mk "config file already exists"), false))
    ∧ (∀ e, ls = some e → (create ls mk).2 = true) := by
  constructor
  · intro h
    simp [create, h]
  · intro e h
    rcases hm : mk with _ | e2 <;> simp [create, h, hm]

/-- Witness for C10: a permission-denied probe error still proceeds to
directory creation. -/
theorem c10_create_probe_witness :
    (create (some .permission) none).2 = true :=
  (c10_create_probe (some .permission) none).2 .permission rfl

/-- Any delete loop completing without error while uncancelled produced
exactly the spec's bottom-up removal sequence, and every delete loop's
trace — also one stopped by an error or by cancellation — is a prefix of
that sequence (it stops at the failing call with no further calls). -/
theorem delLoop_spec (w : DelWorld) (name : String) (es : List Entry) :
    (w.cancelled = false → (delLoop w name es).1 = none →
      (delLoop w name es).2 = specRemovalSeq name es)
    ∧ (delLoop w name es).2 <+: specRemovalSeq name es := by
  induction name, es using delLoop.induct w
  case case1 name =>
    constructor
    · intro _ _
      simp [delLoop, specRemovalSeq]
    · simp only [delLoop, specRemovalSeq]
      exact List.nil_prefix
  case case2 name fi rest hc =>
    constructor
    · intro hcf
      rw [hcf] at hc
      simp at hc
    · have hval : delLoop w name (fi :: rest) = (some (.mk "context canceled"), []) := by
        rcases fi with n | ⟨n, sub⟩ <;> simp [delLoop, hc]
      rw [hval]
      exact List.nil_prefix
  case case3 name rest hc n sub val hrd =>
    have hval : delLoop w name (Entry.dir n sub :: rest)
        = (some (.wrap ("ReadDir " ++ pjoin name n) val), [.readDir (pjoin name n)]) := by
      simp [delLoop, hc, hrd]
    rw [hval]
    constructor
    · intro _ h
      simp at h
    · exact ⟨specRemovalSeq (pjoin name n) sub ++ [.removeDir (pjoin name n)]
          ++ specRemovalSeq name rest, by simp [specRemovalSeq]⟩
  case case4 name rest hc n sub hrd e t hsub ihsub =>
    have hval : delLoop w name (Entry.dir n sub :: rest)
        = (some e, .readDir (pjoin name n) :: t) := by
      simp [delLoop, hc, hrd, hsub]
    have hpre := ihsub.2
    rw [hsub] at hpre
    obtain ⟨u, hu⟩ := hpre
    rw [hval]
    constructor
    · intro _ h
      simp at h
    · refine ⟨u ++ [.removeDir (pjoin name n)] ++ specRemovalSeq name rest, ?_⟩
      simp [specRemovalSeq, ← hu]
  case case5 name rest hc n sub hrd t hsub val hrm ihsub =>
    have hcf : w.cancelled = false := by
      rcases h : w.cancelled with _ | _
      · rfl
      · exact absurd h hc
    have h1 := ihsub.1 hcf
    rw [hsub] at h1
    have ht : t = specRemovalSeq (pjoin name n) sub := h1 rfl
    have hval : delLoop w name (Entry.dir n sub :: rest)
        = (some (.wrap ("RemoveDirectory " ++ pjoin name n) val),
            (.readDir (pjoin name n) :: t) ++ [.removeDir (pjoin name n)]) := by
      simp [delLoop, hc, hrd, hsub, hrm]
    rw [hval]
    constructor
    · intro _ h
      simp at h
    · subst ht
      exact ⟨specRemovalSeq name rest, by simp [specRemovalSeq]⟩
  case case6 name rest hc n sub hrd t hsub hrm r t2 hrest ihsub ihrest =>
    have hcf : w.cancelled = false := by
      rcases h : w.cancelled with _ | _
      · rfl
      · exact absurd h hc
    have h1 := ihsub.1 hcf
    rw [hsub] at h1
    have ht : t = specRemovalSeq (pjoin name n) sub := h1 rfl
    have hval : delLoop w name (Entry.dir n sub :: rest)
        = (r, (.readDir (pjoin name n) :: t) ++ [.removeDir (pjoin name n)] ++ t2) := by
      simp [delLoop, hc, hrd, hsub, hrm, hrest]
    rw [hval]
    constructor
    · intro _ hr
      have hr' : r = none := hr
      have h3 := ihrest.1 hcf
      rw [hrest] at h3
      have h2 : t2 = specRemovalSeq name rest := h3 (by rw [hr'])
      subst ht
      subst h2
      simp [specRemovalSeq]
    · have hpre := ihrest.2
      rw [hrest] at hpre
      obtain ⟨u, hu⟩ := hpre
      subst ht
      refine ⟨u, ?_⟩
      simp [specRemovalSeq, ← hu]
  case case7 name rest hc n val hrm =>
    have hval : delLoop w name (Entry.file n :: rest)
        = (some (.wrap ("Remove " ++ pjoin name n) val), [.removeFile (pjoin name n)]) := by
      simp [delLoop, hc, hrm]
    rw [hval]
    constructor
    · intro _ h
      simp at h
    · exact ⟨specRemovalSeq name rest, by simp [specRemovalSeq]⟩
  case case8 name rest hc n hrm r t2 hrest ihrest =>
    have hval : delLoop w name (Entry.file n :: rest)
        = (r, .removeFile (pjoin name n) :: t2) := by
      simp [delLoop, hc, hrm, hrest]
    rw [hval]
    constructor
    · intro hcf hr
      have hr' : r = none := hr
      have h3 := ihrest.1 hcf
      rw [hrest] at h3
      have h2 : t2 = specRemovalSeq name rest := h3 (by rw [hr'])
      subst h2
      simp [specRemovalSeq]
    · have hpre := ihrest.2
      rw [hrest] at hpre
      obtain ⟨u, hu⟩ := hpre
      refine ⟨u, ?_⟩
      simp [specRemovalSeq, ← hu]

/-- C9: a `Delete` run that completes without error while uncancelled
lists the root and then performs exactly the spec's bottom-up removal
sequence (every file and every subdirectory's contents are removed before
the subdirectory itself); every run's call trace — also one stopped by an
error — is a prefix of that sequence, so the first failure stops all
further calls; and a cancelled context is observed at the first iteration
boundary, failing with the context error after only the root listing. -/
theorem c9_delete_bottom_up (w : DelWorld) (root : String) (es : List Entry) :
    (w.cancelled = false → (deleteOp none w root es).1 = none →
      (deleteOp none w root es).2 = .readDir root :: specRemovalSeq root es)
    ∧ ((deleteOp none w root es).2 <+: .readDir root :: specRemovalSeq root es)
    ∧ (w.readDirRes root = none → w.cancelled = true → ¬es = [] →
      (deleteOp none w root es).1 = some (.mk "context canceled")
      ∧ (deleteOp none w root es).2 = [.readDir root]) := by
  rcases hrd : w.readDirRes root with _ | e
  · rcases hdl : delLoop w root es with ⟨r, t⟩
    have hval : deleteOp none w root es = (r, .readDir root :: t) := by
      simp [deleteOp, hrd, hdl]
    rw [hval]
    obtain ⟨hA, hB⟩ := delLoop_spec w root es
    rw [hdl] at hA hB
    refine ⟨?_, ?_, ?_⟩
    · intro hcf hr
      have ht : t = specRemovalSeq root es := hA hcf hr
      simp [ht]
    · obtain ⟨u, hu⟩ := hB
      exact ⟨u, by simp [hu]⟩
    · intro _ hct hes
      rcases es with _ | ⟨fi, rest⟩
      · exact absurd rfl hes
      · have hstop : delLoop w root (fi :: rest) = (some (.mk "context canceled"), []) := by
          rcases fi with n | ⟨n, sub⟩ <;> simp [delLoop, hct]
        rw [hstop] at hdl
        injection hdl with h1 h2
        subst h1
        subst h2
        exact ⟨rfl, rfl⟩
  · have hval : deleteOp none w root es
        = (some (.wrap ("ReadDir " ++ root) e), [.readDir root]) := by
      simp [deleteOp, hrd]
    rw [hval]
    refine ⟨?_, ?_, ?_⟩
    · intro _ h
      simp at h
    · exact ⟨specRemovalSeq root es, by simp⟩
    · intro h
      simp at h

/-- Witness for C9: deleting a store with one top-level file and one
subdirectory holding two files removes all four entries bottom-up, the
subdirectory's files strictly before the subdirectory itself. -/
theorem c9_delete_bottom_up_witness :
    (deleteOp none cleanDelWorld "repo" [.file "top", .dir "d" [.file "a", .file "b"]]).2
      = [.readDir "repo", .removeFile "repo/top", .readDir "repo/d",
         .removeFile "repo/d/a", .removeFile "repo/d/b", .removeDir "repo/d"] := by
  have h := (c9_delete_bottom_up cleanDelWorld "repo"
      [.file "top", .dir "d" [.file "a", .file "b"]]).1 rfl
    (by simp [deleteOp, delLoop, cleanDelWorld, pjoin])
  rw [h]
  simp [specRemovalSeq, pjoin]

/-- C1 (amended): once the subprocess-exit signal has fired with an error,
Save, Load, Stat, Remove and List each consult `clientError` first and
fail immediately with the permanently-wrapped exit error, performing no
remote protocol calls (empty traces, no visits, no walker steps). -/
theorem c1_client_error_gate (e : Err) (sw : SaveWorld) (lw : LoadWorld)
    (lstatRes : Except Err Int) (hname : String) (remRes : Option Err)
    (w5 : ListWorld) (b : String) (sub : Bool) (steps : List WStep) :
    save (some e) sw = (some (.permanent e), [])
    ∧ load (some e) lw = (some (.permanent e), [])
    ∧ statOp (some e) lstatRes hname = (.error (.permanent e), false)
    ∧ removeOp (some e) remRes = (some (.permanent e), false)
    ∧ listOp (some e) w5 b sub steps = (some (.permanent e), [], 0) :=
  ⟨rfl, rfl, rfl, rfl, rfl⟩

/-- Counterexample to C1 as stated: `Delete` does not consult
`clientError` — at a concrete store, with the exit signal fired, it still
performs the remote `ReadDir` and `Remove` calls and returns success
instead of failing fast with the wrapped exit error. -/
theorem c1_counterexample :
    deleteOp (some (.mk "ssh command exited: boom")) cleanDelWorld
        "repo" [.file "config"]
      = (none, [.readDir "repo", .removeFile "repo/config"]) := by
  simp [deleteOp, delLoop, cleanDelWorld, pjoin]

/-- Counterexample to C2 as stated: at a concrete run where only the close
fails, `Save` does attempt removal of the temporary file (the claim says
the temp file is left in place with no removal attempt); and at concrete
runs failing only the length check or only the chmod, no removal is
attempted (the claim says every early return in steps 2-6 attempts
removal). -/
theorem c2_counterexample :
    SCall.removeTmp ∈ (save none (saveWorldWithClose (some (.mk "close failed")))).2
    ∧ SCall.removeTmp ∉ (save none { saveWorldWithClose none with wbytes := 4 }).2
    ∧ SCall.removeTmp ∉
        (save none { saveWorldWithClose none with chmodRes := some (.mk "chmod failed") }).2 := by
  refine ⟨?_, ?_, ?_⟩ <;> decide

end SFTPSpec
